import Mathlib

/-!
Verification of the typed IPC layer of the electron-toolkit repository
(packages/electron-ipc-typesafe and packages/electron-ipc-bridge,
files create-ipc-handlers.ts and create-ipc-schema.ts).

The embedding models JavaScript plain objects used as string-keyed maps
as ordered association lists with JavaScript insertion-order semantics
(assignment to an existing key replaces the value in place, assignment to
a fresh key appends, delete removes the entry).  Handler implementations
and dispatcher objects are abstract and named by natural numbers; the
handler table each dispatcher accumulates through ipcMain.handle and
ipcMain.removeHandler is part of the explicit state.
-/

set_option autoImplicit false

namespace ElectronToolkit

/-- Ordered string-keyed map with JavaScript object semantics. -/
abbrev JsRecord (α : Type) := List (String × α)

/-- Property read m[k]: the value at the first entry whose key is k. -/
def jsGet {α : Type} : JsRecord α → String → Option α
  | [], _ => none
  | p :: m, k => if p.1 = k then some p.2 else jsGet m k

/-- Property write m[k] = v: replace in place when the key is present,
append at the end when it is absent. -/
def jsSet {α : Type} : JsRecord α → String → α → JsRecord α
  | [], k, v => [(k, v)]
  | p :: m, k, v => if p.1 = k then (k, v) :: m else p :: jsSet m k v

/-- Property delete: remove every entry with the given key. -/
def jsDel {α : Type} : JsRecord α → String → JsRecord α
  | [], _ => []
  | p :: m, k => if p.1 = k then jsDel m k else p :: jsDel m k

/-- Object.keys: the key list in insertion order. -/
def jsKeys {α : Type} (m : JsRecord α) : List String := m.map Prod.fst

@[simp] theorem jsGet_nil {α : Type} (k : String) : jsGet ([] : JsRecord α) k = none := rfl

@[simp] theorem jsGet_jsSet_self {α : Type} (m : JsRecord α) (k : String) (v : α) :
    jsGet (jsSet m k v) k = some v := by
  induction m with
  | nil => simp [jsSet, jsGet]
  | cons p m ih =>
    by_cases h : p.1 = k
    · simp [jsSet, jsGet, h]
    · simp [jsSet, jsGet, h, ih]

@[simp] theorem jsGet_jsSet_ne {α : Type} (m : JsRecord α) (k k' : String) (v : α)
    (h : k' ≠ k) : jsGet (jsSet m k v) k' = jsGet m k' := by
  induction m with
  | nil => simp [jsSet, jsGet, Ne.symm h]
  | cons p m ih =>
    by_cases hp : p.1 = k
    · subst hp
      simp [jsSet, jsGet, Ne.symm h]
    · by_cases hp' : p.1 = k'
      · simp [jsSet, jsGet, hp, hp', h]
      · simp [jsSet, jsGet, hp, hp', ih]

@[simp] theorem jsGet_jsDel_self {α : Type} (m : JsRecord α) (k : String) :
    jsGet (jsDel m k) k = none := by
  induction m with
  | nil => simp [jsDel, jsGet]
  | cons p m ih =>
    by_cases h : p.1 = k
    · simp [jsDel, h, ih]
    · simp [jsDel, jsGet, h, ih]

theorem jsGet_append {α : Type} (m m' : JsRecord α) (k : String) :
    jsGet (m ++ m') k = match jsGet m k with
      | some v => some v
      | none => jsGet m' k := by
  induction m with
  | nil => simp [jsGet]
  | cons p m ih =>
    by_cases h : p.1 = k
    · simp [jsGet, h]
    · simp [jsGet, h, ih]

theorem jsSet_of_jsGet_none {α : Type} (m : JsRecord α) (k : String) (v : α)
    (h : jsGet m k = none) : jsSet m k v = m ++ [(k, v)] := by
  induction m with
  | nil => simp [jsSet]
  | cons p m ih =>
    by_cases hp : p.1 = k
    · simp [jsGet, hp] at h
    · simp [jsGet, hp] at h
      simp [jsSet, hp, ih h]

theorem jsGet_isSome_jsSet {α : Type} (m : JsRecord α) (k k' : String) (v : α)
    (h : (jsGet m k').isSome ∨ k' = k) : (jsGet (jsSet m k v) k').isSome := by
  by_cases hk : k' = k
  · subst hk; simp
  · rcases h with h | h
    · rwa [jsGet_jsSet_ne m k k' v hk]
    · exact absurd h hk

/-- Modelled from the spec: character class used by the Name Transform
tokenizer; non-alphanumeric characters separate tokens. -/
def isWordChar (c : Char) : Bool := c.isAlphanum

/-- Splits a character list at non-alphanumeric separators; the resulting
segments may contain empty pieces, filtered out by camelCase. -/
def splitSegments : List Char → List (List Char)
  | [] => [[]]
  | c :: cs =>
    match splitSegments cs, isWordChar c with
    | w :: ws, true => (c :: w) :: ws
    | [], true => [[c]]
    | ws, false => [] :: ws

/-- Lowercases a whole token. -/
def lowerWord (w : List Char) : List Char := w.map Char.toLower

/-- Capitalizes a token: first character uppercased, rest lowercased. -/
def capWord : List Char → List Char
  | [] => []
  | c :: cs => c.toUpper :: cs.map Char.toLower

/-- Modelled from the spec: the Name Transform the source applies through
the camelCase import of the change-case dependency (the dependency itself
is not part of src).  Per the spec it is a pure tokenize-and-rejoin
mapping: the channel name is tokenized at non-alphanumeric separators, the
first token is lowercased and every later token is capitalized. -/
def camelCase (s : String) : String :=
  match (splitSegments s.data).filter (fun w => !w.isEmpty) with
  | [] => ""
  | w :: ws => ⟨lowerWord w ++ (ws.map capWord).flatten⟩

/-- A forwarding closure created per declared call channel in the preload
surface builders, (...data) => ipcRenderer.invoke(channel, ...data).  The
closure captures only the channel name; applying it forwards the argument
list over the wire on that channel. -/
structure Invoker where
  channel : String
  deriving DecidableEq

/-- The observable effect of applying a forwarding closure: an
ipcRenderer.invoke call carrying the captured channel and the arguments.
Arguments are abstract values named by naturals. -/
structure WireCall where
  channel : String
  args : List Nat
  deriving DecidableEq

/-- Applying a forwarding closure to an argument list. -/
def Invoker.call (inv : Invoker) (args : List Nat) : WireCall :=
  ⟨inv.channel, args⟩

/-- The object a preload script installs under one bridge key: a string
keyed map from CallableName to forwarding closure. -/
abbrev PreloadApi := JsRecord Invoker

/-- Modelled from the spec: getIpcApi (its source file get-ipc-api.ts is
not under src) resolves the boundary object installed in the client
global state under the configured bridge key.  The global state is passed
explicitly as a string-keyed map from bridge key to installed object. -/
def getIpcApi (env : JsRecord PreloadApi) (apiKey : String) : Option PreloadApi :=
  jsGet env apiKey

/-- Single-quote character, used by the configuration error message. -/
def sq : Char := Char.ofNat 39

/-- Error message thrown by an invoke member when the bridge object is not
installed, from create-ipc-schema.ts lines 171-174; it names the bridge
key. -/
def ipcNotAvailableMsg (apiKey : String) : String :=
  "IPC with API key " ++ (apiKey ++
    (" not available, make sure you are in an Electron renderer process, and exposeInPreload has been called in the preload script and "
      ++ (String.singleton sq ++ (apiKey ++ (String.singleton sq ++ " key exported")))))

/-- Outcome of calling one member of the construction-time invoke object. -/
inductive InvokeOutcome
  | ok (v : WireCall)
  | configError (msg : String)
  | typeError
  deriving DecidableEq

/-- A member of the construction-time invoke object: the closure captures
the bridge key and the declared channel name, from create-ipc-schema.ts
lines 166-178. -/
structure InvokeMember where
  apiKey : String
  channel : String
  deriving DecidableEq

/-- Calling an invoke member: resolve the bridge object under the key; if
absent throw the configuration error naming the key; otherwise forward the
arguments to the same-named member of the resolved object (a missing
member would be a JavaScript TypeError). -/
def InvokeMember.call (im : InvokeMember) (env : JsRecord PreloadApi)
    (args : List Nat) : InvokeOutcome :=
  match getIpcApi env im.apiKey with
  | none => .configError (ipcNotAvailableMsg im.apiKey)
  | some api =>
    match jsGet api (camelCase im.channel) with
    | some inv => .ok (inv.call args)
    | none => .typeError

/-- Construction of the invoke object over the full declared call channel
set, from create-ipc-schema.ts lines 166-178 and the matching
getInvokeObject of create-ipc-handlers.ts lines 77-90. -/
def getInvokeObject (apiKey : String) (channels : List String) : JsRecord InvokeMember :=
  channels.foldl (fun m ch => jsSet m (camelCase ch) ⟨apiKey, ch⟩) []

/-- Construction of the legacy preload invoker entries, from
create-ipc-schema.ts lines 126-137 and create-ipc-handlers.ts lines
64-74. -/
def registerInvokersImpl (channels : List String) : JsRecord Invoker :=
  channels.foldl (fun m ch => jsSet m (camelCase ch) ⟨ch⟩) []

/-- The call-channel part of the object built for preload exposure: a flat
map of forwarding closures plus an invoke sub-namespace, from
create-ipc-handlers.ts lines 93-107 and create-ipc-schema.ts lines
140-154. -/
structure ExposedHandlersPart where
  flat : JsRecord Invoker
  invokeNs : JsRecord Invoker
  deriving DecidableEq

/-- Builds the preload exposure part for the declared call channels: one
invoker closure is created per channel and the same closure is stored both
under the flat CallableName member and under the invoke sub-namespace. -/
def getExposeInPreloadHandlersPart (channels : List String) : ExposedHandlersPart :=
  let pair := channels.foldl
    (fun (acc : JsRecord Invoker × JsRecord Invoker) ch =>
      let invoker : Invoker := ⟨ch⟩
      (jsSet acc.1 (camelCase ch) invoker, jsSet acc.2 (camelCase ch) invoker))
    ([], [])
  ⟨pair.1, pair.2⟩

example : camelCase "user.get-data" = "userGetData" := by decide
example : camelCase "get-user" = "getUser" := by decide
example : camelCase "get.user" = "getUser" := by decide

/-- State of one handler registry instance together with the handler
tables of the dispatcher objects it may bind to.  registeredHandlers and
ipcMainInstance are the two closure variables of create-ipc-handlers.ts
lines 26-27 and create-ipc-schema.ts lines 83-84; handler implementations
are abstract values named by naturals, dispatchers are named by natural
ids, and tables gives the handler table each dispatcher has accumulated
through ipcMain.handle and ipcMain.removeHandler. -/
structure RegState where
  registeredHandlers : JsRecord Nat
  ipcMainInstance : Option Nat
  tables : Nat → JsRecord Nat

/-- Effect of ipcMain.handle(channel, handler) on dispatcher d. -/
def ipcHandle (s : RegState) (d : Nat) (ch : String) (h : Nat) : RegState :=
  { s with tables := fun x => if x = d then jsSet (s.tables x) ch h else s.tables x }

/-- Effect of ipcMain.removeHandler(channel) on dispatcher d. -/
def ipcRemoveHandler (s : RegState) (d : Nat) (ch : String) : RegState :=
  { s with tables := fun x => if x = d then jsDel (s.tables x) ch else s.tables x }

/-- A cleanup closure returned by registerHandler.  The closure body of
create-ipc-handlers.ts lines 43-51 captures only the channel string (plus
the registry cells shared with every other closure of the instance), so a
cleanup value is the captured channel string. -/
abbrev Cleanup := String

/-- registerHandler, from create-ipc-handlers.ts lines 30-52 and
create-ipc-schema.ts lines 87-109: store the handler in the registry map;
if a dispatcher is already attached, bind immediately through
ipcMain.handle; return the cleanup closure capturing the channel string. -/
def registerHandler (s : RegState) (channel : String) (handler : Nat) :
    RegState × Cleanup :=
  let s1 := { s with registeredHandlers := jsSet s.registeredHandlers channel handler }
  match s1.ipcMainInstance with
  | some d => (ipcHandle s1 d channel handler, channel)
  | none => (s1, channel)

/-- Invoking a cleanup closure, from create-ipc-handlers.ts lines 43-51:
delete the channel entry from the registry map, and if a dispatcher is
attached remove the channel handler from it.  There is no generation
check: removal is keyed by channel name alone. -/
def runCleanup (s : RegState) (c : Cleanup) : RegState :=
  let s1 := { s with registeredHandlers := jsDel s.registeredHandlers c }
  match s1.ipcMainInstance with
  | some d => ipcRemoveHandler s1 d c
  | none => s1

/-- registerMainHandlers (the attachDispatcher of the spec), from
create-ipc-handlers.ts lines 55-62 and create-ipc-schema.ts lines
112-119: overwrite the dispatcher slot with the new dispatcher, then bind
every currently registered handler to it in entry order.  No detach of a
previously attached dispatcher happens. -/
def registerMainHandlers (s : RegState) (d : Nat) : RegState :=
  let s1 : RegState := { s with ipcMainInstance := some d }
  s1.registeredHandlers.foldl (fun acc p => ipcHandle acc d p.1 p.2) s1

/-- The empty registry state with no dispatcher attached and all
dispatcher tables empty. -/
def initialRegState : RegState := ⟨[], none, fun _ => []⟩

/-- Tag for the registerMainHandlers member of a constructed schema
surface: either the real registry function or the backward-compatibility
no-op of create-ipc-schema.ts line 197. -/
inductive MainRegFn
  | real
  | noop
  deriving DecidableEq

/-- Tag for the registerInvokers member of a constructed schema surface:
either the real builder or the backward-compatibility no-op returning an
empty object, create-ipc-schema.ts line 196. -/
inductive InvokersFn
  | real
  | noop
  deriving DecidableEq

/-- A createIpcSchema configuration: bridge key plus the optional call
channel and event channel declaration maps.  Only the declared names
matter at runtime (the schema values are type-level placeholders that are
undefined at runtime), so the maps are carried as key lists. -/
structure Config where
  apiKey : String
  handlers : Option (List String)
  events : Option (List String)

/-- Truth of the JavaScript guard handlers && Object.keys(handlers).length > 0. -/
def Config.hasHandlers (c : Config) : Bool :=
  match c.handlers with
  | some l => !l.isEmpty
  | none => false

/-- Truth of the JavaScript guard events && Object.keys(events).length > 0
(equivalently eventsApi !== null). -/
def Config.hasEvents (c : Config) : Bool :=
  match c.events with
  | some l => !l.isEmpty
  | none => false

/-- The object createIpcSchema returns, from create-ipc-schema.ts lines
180-212: which members are present and whether the registration members
are the real registry functions or the backward-compatibility no-ops. -/
structure Surface where
  apiKey : String
  callChannels : List String
  eventChannels : List String
  registerHandlerPresent : Bool
  invokePresent : Bool
  mainRegFn : MainRegFn
  invokersFn : InvokersFn
  deriving DecidableEq

/-- createIpcSchema, from create-ipc-schema.ts lines 69-213: throw a
configuration error when both declaration maps are empty or absent,
otherwise build the result object; handler-related members are real
exactly when call channels were declared, and the invoke member is added
in the no-handler branch only when there are also no events. -/
def createIpcSchema (c : Config) : Except String Surface :=
  if !c.hasHandlers && !c.hasEvents then
    .error "At least one of handlers or events must be provided"
  else
    .ok
      { apiKey := c.apiKey
        callChannels := c.handlers.getD []
        eventChannels := c.events.getD []
        registerHandlerPresent := c.hasHandlers
        invokePresent := if c.hasHandlers then true else !c.hasEvents
        mainRegFn := if c.hasHandlers then .real else .noop
        invokersFn := if c.hasHandlers then .real else .noop }

/-- Calling the registerMainHandlers member of a constructed surface on a
registry state: the real member runs registerMainHandlers, the no-op
member does nothing. -/
def Surface.applyRegisterMainHandlers (surf : Surface) (s : RegState) (d : Nat) :
    RegState :=
  match surf.mainRegFn with
  | .real => registerMainHandlers s d
  | .noop => s

/-- Calling the registerInvokers member of a constructed surface: the real
member builds the invoker entries over the declared call channels, the
no-op member returns an empty object. -/
def Surface.applyRegisterInvokers (surf : Surface) : JsRecord Invoker :=
  match surf.invokersFn with
  | .real => registerInvokersImpl surf.callChannels
  | .noop => []

/-! Helper lemmas about folds of JavaScript-object writes. -/

theorem foldl_jsSet_fresh {α : Type} :
    ∀ (ps : JsRecord α) (t : JsRecord α),
      (∀ p ∈ ps, jsGet t p.1 = none) → (ps.map Prod.fst).Nodup →
      ps.foldl (fun m p => jsSet m p.1 p.2) t = t ++ ps := by
  intro ps
  induction ps with
  | nil => intro t _ _; simp
  | cons p ps ih =>
    intro t hfresh hnodup
    have hp : jsGet t p.1 = none := hfresh p (by simp)
    have hset : jsSet t p.1 p.2 = t ++ [p] := by
      simpa using jsSet_of_jsGet_none t p.1 p.2 hp
    have hnd : (ps.map Prod.fst).Nodup := (List.nodup_cons.mp hnodup).2
    have hnotmem : p.1 ∉ ps.map Prod.fst := (List.nodup_cons.mp hnodup).1
    have hfresh' : ∀ q ∈ ps, jsGet (t ++ [p]) q.1 = none := by
      intro q hq
      have h1 : jsGet t q.1 = none := hfresh q (by simp [hq])
      have h2 : q.1 ≠ p.1 := by
        intro he
        exact hnotmem (he ▸ List.mem_map_of_mem Prod.fst hq)
      have h3 : jsGet [p] q.1 = none := by
        simp [jsGet, h2.symm]
      rw [jsGet_append, h1, h3]
    calc (p :: ps).foldl (fun m q => jsSet m q.1 q.2) t
        = ps.foldl (fun m q => jsSet m q.1 q.2) (jsSet t p.1 p.2) := by simp
      _ = ps.foldl (fun m q => jsSet m q.1 q.2) (t ++ [p]) := by rw [hset]
      _ = (t ++ [p]) ++ ps := ih (t ++ [p]) hfresh' hnd
      _ = t ++ (p :: ps) := by simp

theorem foldl_ipcHandle_tables :
    ∀ (ps : JsRecord Nat) (s : RegState) (d : Nat),
      (ps.foldl (fun acc p => ipcHandle acc d p.1 p.2) s).tables d
        = ps.foldl (fun t p => jsSet t p.1 p.2) (s.tables d) := by
  intro ps
  induction ps with
  | nil => intro s d; rfl
  | cons p ps ih =>
    intro s d
    have : (ipcHandle s d p.1 p.2).tables d = jsSet (s.tables d) p.1 p.2 := by
      simp [ipcHandle]
    simp only [List.foldl_cons, ih, this]

theorem foldl_ipcHandle_ipcMainInstance :
    ∀ (ps : JsRecord Nat) (s : RegState) (d : Nat),
      (ps.foldl (fun acc p => ipcHandle acc d p.1 p.2) s).ipcMainInstance
        = s.ipcMainInstance := by
  intro ps
  induction ps with
  | nil => intro s d; rfl
  | cons p ps ih =>
    intro s d
    simp only [List.foldl_cons, ih]
    rfl

/-! Helper lemmas about the preload exposure pair fold. -/

theorem exposeFold_fst :
    ∀ (chs : List String) (a b : JsRecord Invoker),
      (chs.foldl
        (fun (acc : JsRecord Invoker × JsRecord Invoker) ch =>
          let invoker : Invoker := ⟨ch⟩
          (jsSet acc.1 (camelCase ch) invoker, jsSet acc.2 (camelCase ch) invoker))
        (a, b)).1
      = chs.foldl (fun m ch => jsSet m (camelCase ch) ⟨ch⟩) a := by
  intro chs
  induction chs with
  | nil => intro a b; rfl
  | cons c chs ih =>
    intro a b
    simp only [List.foldl_cons]
    exact ih _ _

theorem exposeFold_snd :
    ∀ (chs : List String) (a b : JsRecord Invoker),
      (chs.foldl
        (fun (acc : JsRecord Invoker × JsRecord Invoker) ch =>
          let invoker : Invoker := ⟨ch⟩
          (jsSet acc.1 (camelCase ch) invoker, jsSet acc.2 (camelCase ch) invoker))
        (a, b)).2
      = chs.foldl (fun m ch => jsSet m (camelCase ch) ⟨ch⟩) b := by
  intro chs
  induction chs with
  | nil => intro a b; rfl
  | cons c chs ih =>
    intro a b
    simp only [List.foldl_cons]
    exact ih _ _

theorem expose_flat_eq_invokeNs (chs : List String) :
    (getExposeInPreloadHandlersPart chs).flat
      = (getExposeInPreloadHandlersPart chs).invokeNs := by
  simp [getExposeInPreloadHandlersPart, exposeFold_fst, exposeFold_snd]

theorem expose_flat_eq_registerInvokersImpl (chs : List String) :
    (getExposeInPreloadHandlersPart chs).flat = registerInvokersImpl chs := by
  simp [getExposeInPreloadHandlersPart, exposeFold_fst, registerInvokersImpl]

theorem invokerFold_preserves_isSome :
    ∀ (chs : List String) (m : JsRecord Invoker) (k : String),
      (jsGet m k).isSome →
      (jsGet (chs.foldl (fun m ch => jsSet m (camelCase ch) ⟨ch⟩) m) k).isSome := by
  intro chs
  induction chs with
  | nil => intro m k h; simpa using h
  | cons c chs ih =>
    intro m k h
    simp only [List.foldl_cons]
    exact ih _ k (jsGet_isSome_jsSet m (camelCase c) k ⟨c⟩ (Or.inl h))

theorem invokerFold_mem_isSome :
    ∀ (chs : List String) (m : JsRecord Invoker) (ch : String),
      ch ∈ chs →
      (jsGet (chs.foldl (fun m ch => jsSet m (camelCase ch) ⟨ch⟩) m) (camelCase ch)).isSome := by
  intro chs
  induction chs with
  | nil => intro m ch h; simp at h
  | cons c chs ih =>
    intro m ch h
    rcases List.mem_cons.mp h with he | hm
    · subst he
      simp only [List.foldl_cons]
      exact invokerFold_preserves_isSome chs _ (camelCase ch) (by simp)
    · simp only [List.foldl_cons]
      exact ih _ ch hm

/-- First-occurrence deduplication relative to a list of already seen
keys; describes the key order a JavaScript object acquires when written
through repeated property assignments. -/
def fdAux : List String → List String → List String
  | _, [] => []
  | seen, k :: ks => if k ∈ seen then fdAux seen ks else k :: fdAux (k :: seen) ks

/-- The CallableName key list a construction derives from a declared
channel list: the transforms of the channels in first-occurrence order.
This is a pure function of the declaration alone. -/
def callableKeys (chs : List String) : List String :=
  fdAux [] (chs.map camelCase)

theorem jsKeys_jsSet_mem {α : Type} :
    ∀ (m : JsRecord α) (k : String) (v : α), k ∈ jsKeys m →
      jsKeys (jsSet m k v) = jsKeys m := by
  intro m
  induction m with
  | nil => intro k v h; simp [jsKeys] at h
  | cons p m ih =>
    intro k v h
    by_cases hp : p.1 = k
    · simp [jsSet, jsKeys, hp]
    · have hcons : jsKeys (p :: m) = p.1 :: jsKeys m := rfl
      rw [hcons] at h
      have hm : k ∈ jsKeys m := by
        rcases List.mem_cons.mp h with he | hm
        · exact absurd he.symm hp
        · exact hm
      simp [jsSet, jsKeys, hp]
      simpa [jsKeys] using ih k v hm

theorem jsKeys_jsSet_not_mem {α : Type} :
    ∀ (m : JsRecord α) (k : String) (v : α), k ∉ jsKeys m →
      jsKeys (jsSet m k v) = jsKeys m ++ [k] := by
  intro m
  induction m with
  | nil => intro k v _; simp [jsSet, jsKeys]
  | cons p m ih =>
    intro k v h
    have hp : p.1 ≠ k := by
      intro he
      exact h (by simp [jsKeys, he])
    have hm : k ∉ jsKeys m := by
      intro hm
      exact h (by simp [jsKeys] at hm ⊢; exact Or.inr hm)
    simp [jsSet, jsKeys, hp]
    simpa [jsKeys] using ih k v hm

theorem fdAux_congr :
    ∀ (l s1 s2 : List String), (∀ x, x ∈ s1 ↔ x ∈ s2) →
      fdAux s1 l = fdAux s2 l := by
  intro l
  induction l with
  | nil => intro s1 s2 _; rfl
  | cons k ks ih =>
    intro s1 s2 hiff
    by_cases hk : k ∈ s1
    · simp [fdAux, hk, (hiff k).mp hk, ih s1 s2 hiff]
    · have hk2 : k ∉ s2 := fun hc => hk ((hiff k).mpr hc)
      have : ∀ x, x ∈ k :: s1 ↔ x ∈ k :: s2 := by
        intro x
        simp [List.mem_cons, hiff x]
      simp [fdAux, hk, hk2, ih (k :: s1) (k :: s2) this]

theorem jsKeys_foldl_jsSet {α : Type} (f : String → α) :
    ∀ (chs : List String) (m : JsRecord α),
      jsKeys (chs.foldl (fun acc ch => jsSet acc (camelCase ch) (f ch)) m)
        = jsKeys m ++ fdAux (jsKeys m) (chs.map camelCase) := by
  intro chs
  induction chs with
  | nil => intro m; simp [fdAux]
  | cons c chs ih =>
    intro m
    simp only [List.foldl_cons, List.map_cons]
    by_cases hc : camelCase c ∈ jsKeys m
    · rw [ih (jsSet m (camelCase c) (f c)), jsKeys_jsSet_mem m (camelCase c) (f c) hc]
      simp [fdAux, hc]
    · rw [ih (jsSet m (camelCase c) (f c)), jsKeys_jsSet_not_mem m (camelCase c) (f c) hc]
      have hiff : ∀ x, x ∈ jsKeys m ++ [camelCase c] ↔ x ∈ camelCase c :: jsKeys m := by
        intro x
        simp [List.mem_append, List.mem_cons, or_comm]
      rw [fdAux_congr (chs.map camelCase) _ _ hiff]
      simp [fdAux, hc, List.append_assoc]

/-! Claim theorems. -/

/-- C4: for every configuration whose call-channel map and event-channel
map are both empty or absent, createIpcSchema always throws a
configuration error synchronously and never returns an object; for every
configuration with at least one declared channel it returns a usable
surface. -/
theorem c4_empty_schema_construction_fails (c : Config) :
    (c.hasHandlers = false ∧ c.hasEvents = false →
      createIpcSchema c = .error "At least one of handlers or events must be provided")
    ∧ (c.hasHandlers = true ∨ c.hasEvents = true →
      ∃ s : Surface, createIpcSchema c = .ok s) := by
  constructor
  · rintro ⟨h1, h2⟩
    simp [createIpcSchema, h1, h2]
  · intro h
    have hcond : (!c.hasHandlers && !c.hasEvents) = false := by
      rcases h with h | h <;> simp [h]
    cases hcs : createIpcSchema c with
    | error e =>
      unfold createIpcSchema at hcs
      rw [hcond] at hcs
      simp at hcs
    | ok s => exact ⟨s, rfl⟩

/-- Witness for C4 at concrete configurations: the empty configuration is
rejected and a one-channel configuration constructs. -/
theorem c4_witness :
    createIpcSchema ⟨"test-api", none, none⟩
        = .error "At least one of handlers or events must be provided"
      ∧ ∃ s : Surface, createIpcSchema ⟨"test-api", some ["get-user"], none⟩ = .ok s :=
  ⟨(c4_empty_schema_construction_fails ⟨"test-api", none, none⟩).1 ⟨rfl, rfl⟩,
    (c4_empty_schema_construction_fails ⟨"test-api", some ["get-user"], none⟩).2
      (Or.inl rfl)⟩

/-- C5: once a dispatcher has been attached via registerMainHandlers,
every currently registered binding is bound to it in registration order,
and every registerHandler call made afterward binds its handler to that
dispatcher immediately within the same call, with no further attach call
required. -/
theorem c5_attach_binds_all_and_later_registrations_bind_immediately :
    (∀ (s : RegState) (d : Nat),
        (jsKeys s.registeredHandlers).Nodup → s.tables d = [] →
        (registerMainHandlers s d).tables d = s.registeredHandlers
          ∧ (registerMainHandlers s d).ipcMainInstance = some d)
    ∧ (∀ (s : RegState) (d : Nat) (ch : String) (hv : Nat),
        s.ipcMainInstance = some d →
        jsGet ((registerHandler s ch hv).1.tables d) ch = some hv
          ∧ (registerHandler s ch hv).1.ipcMainInstance = some d
          ∧ jsGet (registerHandler s ch hv).1.registeredHandlers ch = some hv) := by
  constructor
  · intro s d hnodup htbl
    unfold registerMainHandlers
    constructor
    · rw [foldl_ipcHandle_tables]
      have hfresh : ∀ p ∈ s.registeredHandlers, jsGet ([] : JsRecord Nat) p.1 = none := by
        intro p _; rfl
      have := foldl_jsSet_fresh s.registeredHandlers [] hfresh hnodup
      simpa [htbl] using this
    · rw [foldl_ipcHandle_ipcMainInstance]
  · intro s d ch hv hinst
    unfold registerHandler
    simp only [hinst]
    refine ⟨?_, rfl, ?_⟩
    · simp [ipcHandle]
    · simp [ipcHandle]

/-- Witness for C5: attaching dispatcher 7 to a registry holding two
bindings binds both in order, and registering under channel c while
dispatcher 3 is attached binds immediately. -/
theorem c5_witness :
    ((jsKeys (⟨[("a", 1), ("b", 2)], none, fun _ => []⟩ : RegState).registeredHandlers).Nodup
      ∧ (registerMainHandlers ⟨[("a", 1), ("b", 2)], none, fun _ => []⟩ 7).tables 7
          = [("a", 1), ("b", 2)])
    ∧ jsGet ((registerHandler ⟨[("a", 1)], some 3, fun _ => []⟩ "c" 9).1.tables 3) "c"
        = some 9 :=
  ⟨⟨by decide,
    ((c5_attach_binds_all_and_later_registrations_bind_immediately.1
      ⟨[("a", 1), ("b", 2)], none, fun _ => []⟩ 7) (by decide) rfl).1⟩,
    ((c5_attach_binds_all_and_later_registrations_bind_immediately.2
      ⟨[("a", 1)], some 3, fun _ => []⟩ 3 "c" 9) rfl).1⟩

/-- C6: calling a member of the construction-time invoke object while the
boundary lookup resolves to nothing throws a configuration error
synchronously, whose message names the bridge key; it never returns a
success value. -/
theorem c6_invoke_without_bridge_throws_config_error
    (im : InvokeMember) (env : JsRecord PreloadApi) (args : List Nat)
    (h : getIpcApi env im.apiKey = none) :
    im.call env args = .configError (ipcNotAvailableMsg im.apiKey)
      ∧ (∃ pre post : String, ipcNotAvailableMsg im.apiKey = pre ++ (im.apiKey ++ post))
      ∧ ∀ v : WireCall, im.call env args ≠ .ok v := by
  refine ⟨?_, ⟨"IPC with API key ", _, rfl⟩, ?_⟩
  · simp [InvokeMember.call, h]
  · intro v
    simp [InvokeMember.call, h]

/-- Witness for C6: with an empty boundary environment the member for
channel get-user under bridge key test-api fails with the configuration
error naming test-api. -/
theorem c6_witness :
    getIpcApi [] "test-api" = none
      ∧ (InvokeMember.call ⟨"test-api", "get-user"⟩ [] []
            = .configError (ipcNotAvailableMsg "test-api")
          ∧ (∃ pre post : String,
              ipcNotAvailableMsg "test-api" = pre ++ ("test-api" ++ post))
          ∧ ∀ v : WireCall, InvokeMember.call ⟨"test-api", "get-user"⟩ [] [] ≠ .ok v) :=
  ⟨rfl, c6_invoke_without_bridge_throws_config_error ⟨"test-api", "get-user"⟩ [] [] rfl⟩

/-- C7 counterexample: two distinct declared channels whose transforms
collide; construction succeeds with no error instead of failing fast, and
in the generated surface the second channel wrapper has overwritten the
first. -/
theorem c7_counterexample :
    camelCase "get-user" = camelCase "get.user"
      ∧ (∃ s : Surface,
          createIpcSchema ⟨"test-api", some ["get-user", "get.user"], none⟩ = .ok s)
      ∧ jsGet (getExposeInPreloadHandlersPart ["get-user", "get.user"]).flat "getUser"
          = some ⟨"get.user"⟩ :=
  ⟨rfl, ⟨_, rfl⟩, rfl⟩

/-- C7 amended: construction performs no uniqueness validation of the
transformed names; whenever two declared channels transform to the same
CallableName, construction still succeeds, and in the generated surfaces
the later channel wrapper silently overwrites the earlier one. -/
theorem c7_collision_overwrites_silently (k ch1 ch2 : String)
    (h : camelCase ch1 = camelCase ch2) :
    (∃ s : Surface, createIpcSchema ⟨k, some [ch1, ch2], none⟩ = .ok s)
      ∧ jsGet (getExposeInPreloadHandlersPart [ch1, ch2]).flat (camelCase ch2)
          = some ⟨ch2⟩
      ∧ jsGet (getExposeInPreloadHandlersPart [ch1, ch2]).invokeNs (camelCase ch2)
          = some ⟨ch2⟩ := by
  refine ⟨⟨_, rfl⟩, ?_, ?_⟩
  · simp [getExposeInPreloadHandlersPart, h, jsSet, jsGet]
  · simp [getExposeInPreloadHandlersPart, h, jsSet, jsGet]

/-- Witness for C7 amended at the colliding channels get-user and
get.user. -/
theorem c7_witness :
    camelCase "get-user" = camelCase "get.user"
      ∧ ((∃ s : Surface,
            createIpcSchema ⟨"test-api", some ["get-user", "get.user"], none⟩ = .ok s)
          ∧ jsGet (getExposeInPreloadHandlersPart ["get-user", "get.user"]).flat
              (camelCase "get.user") = some ⟨"get.user"⟩
          ∧ jsGet (getExposeInPreloadHandlersPart ["get-user", "get.user"]).invokeNs
              (camelCase "get.user") = some ⟨"get.user"⟩) :=
  ⟨rfl, c7_collision_overwrites_silently "test-api" "get-user" "get.user" rfl⟩

/-- C8: for every declared call channel, the preload exposure object holds
a flattened member and an invoke sub-namespace member under the same
CallableName, and the two are one and the same forwarding closure, so the
two access paths cannot diverge. -/
theorem c8_flat_and_namespaced_share_one_closure
    (channels : List String) (ch : String) (h : ch ∈ channels) :
    jsGet (getExposeInPreloadHandlersPart channels).flat (camelCase ch)
        = jsGet (getExposeInPreloadHandlersPart channels).invokeNs (camelCase ch)
      ∧ ∃ inv : Invoker,
          jsGet (getExposeInPreloadHandlersPart channels).flat (camelCase ch) = some inv
            ∧ jsGet (getExposeInPreloadHandlersPart channels).invokeNs (camelCase ch)
                = some inv
            ∧ ∀ args : List Nat, inv.call args = ⟨inv.channel, args⟩ := by
  have heq := expose_flat_eq_invokeNs channels
  have hsome :
      (jsGet (getExposeInPreloadHandlersPart channels).flat (camelCase ch)).isSome := by
    rw [expose_flat_eq_registerInvokersImpl channels]
    exact invokerFold_mem_isSome channels [] ch h
  rcases Option.isSome_iff_exists.mp hsome with ⟨inv, hinv⟩
  exact ⟨by rw [heq], inv, hinv, by rw [← heq]; exact hinv, fun args => rfl⟩

/-- Witness for C8 at the declared channel get-user. -/
theorem c8_witness :
    jsGet (getExposeInPreloadHandlersPart ["get-user", "save-data"]).flat
        (camelCase "get-user")
      = jsGet (getExposeInPreloadHandlersPart ["get-user", "save-data"]).invokeNs
        (camelCase "get-user")
    ∧ ∃ inv : Invoker,
        jsGet (getExposeInPreloadHandlersPart ["get-user", "save-data"]).flat
            (camelCase "get-user") = some inv
          ∧ jsGet (getExposeInPreloadHandlersPart ["get-user", "save-data"]).invokeNs
              (camelCase "get-user") = some inv
          ∧ ∀ args : List Nat, inv.call args = ⟨inv.channel, args⟩ :=
  c8_flat_and_namespaced_share_one_closure ["get-user", "save-data"] "get-user"
    (by decide)

/-- C9: the Name Transform is a deterministic pure function of the
declared channel name: every surface construction derives its CallableName
key list as the same pure function callableKeys of the declaration alone,
so identical declarations always produce identical CallableName sets; and
the channel user.get-data transforms to userGetData. -/
theorem c9_name_transform_deterministic :
    (∀ (apiKey : String) (chs : List String),
        jsKeys (registerInvokersImpl chs) = callableKeys chs
          ∧ jsKeys (getExposeInPreloadHandlersPart chs).flat = callableKeys chs
          ∧ jsKeys (getExposeInPreloadHandlersPart chs).invokeNs = callableKeys chs
          ∧ jsKeys (getInvokeObject apiKey chs) = callableKeys chs)
      ∧ camelCase "user.get-data" = "userGetData" := by
  refine ⟨fun apiKey chs => ?_, rfl⟩
  have h1 : jsKeys (registerInvokersImpl chs) = callableKeys chs := by
    have := jsKeys_foldl_jsSet (fun ch => (⟨ch⟩ : Invoker)) chs []
    simpa [registerInvokersImpl, callableKeys, jsKeys] using this
  have h4 : jsKeys (getInvokeObject apiKey chs) = callableKeys chs := by
    have := jsKeys_foldl_jsSet (fun ch => (⟨apiKey, ch⟩ : InvokeMember)) chs []
    simpa [getInvokeObject, callableKeys, jsKeys] using this
  refine ⟨h1, ?_, ?_, h4⟩
  · rw [expose_flat_eq_registerInvokersImpl chs]
    exact h1
  · rw [← expose_flat_eq_invokeNs chs, expose_flat_eq_registerInvokersImpl chs]
    exact h1

/-- C10: for every events-only configuration, createIpcSchema returns a
surface with no registerHandler and no invoke member, yet with
registerMainHandlers and registerInvokers present as callable no-ops that
return unit and an empty object, never throw, and never mutate registry
state. -/
theorem c10_events_only_surface_has_noop_registration (c : Config)
    (h1 : c.hasHandlers = false) (h2 : c.hasEvents = true) :
    ∃ s : Surface,
      createIpcSchema c = .ok s
        ∧ s.registerHandlerPresent = false
        ∧ s.invokePresent = false
        ∧ s.mainRegFn = MainRegFn.noop
        ∧ s.invokersFn = InvokersFn.noop
        ∧ (∀ (st : RegState) (d : Nat), s.applyRegisterMainHandlers st d = st)
        ∧ s.applyRegisterInvokers = [] := by
  refine ⟨⟨c.apiKey, c.handlers.getD [], c.events.getD [], false, false, .noop, .noop⟩,
    ?_, rfl, rfl, rfl, rfl, ?_, ?_⟩
  · unfold createIpcSchema
    rw [h1, h2]
    simp
  · intro st d
    rfl
  · rfl

/-- Witness for C10 at a concrete events-only configuration. -/
theorem c10_witness :
    ∃ s : Surface,
      createIpcSchema ⟨"test-api", none, some ["user-updated"]⟩ = .ok s
        ∧ s.registerHandlerPresent = false
        ∧ s.invokePresent = false
        ∧ s.mainRegFn = MainRegFn.noop
        ∧ s.invokersFn = InvokersFn.noop
        ∧ (∀ (st : RegState) (d : Nat), s.applyRegisterMainHandlers st d = st)
        ∧ s.applyRegisterInvokers = [] :=
  c10_events_only_surface_has_noop_registration ⟨"test-api", none, some ["user-updated"]⟩
    rfl rfl

/-- Registry state reached by: register handler 1 under get-user (keeping
its cleanup closure), attach dispatcher 0, register handler 2 under
get-user (superseding handler 1), then invoke the cleanup closure of the
first registration. -/
def c1Final : RegState :=
  runCleanup
    (registerHandler
      (registerMainHandlers (registerHandler initialRegState "get-user" 1).1 0)
      "get-user" 2).1
    (registerHandler initialRegState "get-user" 1).2

/-- C1 (code divergence): invoking the cleanup closure of a superseded
registration is not a no-op with respect to the newer binding: it removes
the newer handler 2 both from the registry map and from the attached
dispatcher, because the closure removes by channel name alone with no
generation guard. -/
theorem c1_superseded_cleanup_removes_newer_binding :
    c1Final.registeredHandlers = []
      ∧ jsGet (c1Final.tables 0) "get-user" = none :=
  ⟨rfl, rfl⟩

/-- Registry state reached by: register handler 1 under get-user, attach
dispatcher 1, then attach dispatcher 2. -/
def c2Final : RegState :=
  registerMainHandlers
    (registerMainHandlers (registerHandler initialRegState "get-user" 1).1 1) 2

/-- C2 (code divergence): a second registerMainHandlers call overwrites
the dispatcher slot bare, without detaching the bound channel from the
prior dispatcher: dispatcher 1 keeps its orphaned binding while the slot
now records dispatcher 2. -/
theorem c2_attach_overwrites_dispatcher_without_detach :
    c2Final.tables 1 = [("get-user", 1)]
      ∧ c2Final.ipcMainInstance = some 2
      ∧ jsGet (c2Final.tables 2) "get-user" = some 1 :=
  ⟨rfl, rfl, rfl⟩

/-- Registry state reached by: register handler 1 under get-user (keeping
its cleanup closure), register handler 2 under get-user, invoke the stale
first cleanup closure, then attach dispatcher 1; all registry mutations
happen before the attach. -/
def c3Final : RegState :=
  registerMainHandlers
    (runCleanup
      (registerHandler (registerHandler initialRegState "get-user" 1).1 "get-user" 2).1
      (registerHandler initialRegState "get-user" 1).2) 1

/-- C3 (code divergence): after the interleaving register 1, register 2,
stale cleanup of registration 1, attaching binds nothing for the channel,
although registration 2 was never unregistered through its own cleanup and
is the last-registered still-active implementation. -/
theorem c3_attach_after_stale_cleanup_binds_nothing :
    jsGet (c3Final.tables 1) "get-user" = none
      ∧ c3Final.registeredHandlers = [] :=
  ⟨rfl, rfl⟩

end ElectronToolkit
